import Mathlib

/-!
Verification of the Plaid biclustering algorithm
(`biclustlib/algorithms/plaid.py`).

The matrix data is modelled over `ℚ`; numpy arrays become a `Mat` record
(dimensions plus an entry function), index arrays become `List Nat`, and
the in-place mutations of the Python code become explicit state passing
through a `PlaidState` record.  The external `k_means` primitive and
`np.random.shuffle` are modelled by oracles supplying, respectively, the
label vector returned by the clustering call and the permutation applied
by a shuffle.
-/

namespace Plaid

/-- A dense 2D matrix of rationals (model of a `numpy.ndarray`). -/
structure Mat where
  nrows : Nat
  ncols : Nat
  entry : Nat → Nat → ℚ

/-- Default matrix, used only as the `getD` fallback. -/
def matDefault : Mat := ⟨0, 0, fun _ _ => 0⟩

/-- Transpose (model of `a.T`). -/
def transpose (a : Mat) : Mat := ⟨a.ncols, a.nrows, fun i j => a.entry j i⟩

/-- Elementwise subtraction of same-shaped matrices (model of `a - b`). -/
def matSub (a b : Mat) : Mat :=
  ⟨a.nrows, a.ncols, fun i j => a.entry i j - b.entry i j⟩

/-- Fancy-indexed submatrix `a[rows[:, np.newaxis], cols]`. -/
def subMat (a : Mat) (rows cols : List Nat) : Mat :=
  ⟨rows.length, cols.length, fun i j => a.entry (rows.getD i 0) (cols.getD j 0)⟩

/-- Sum of a row of a matrix. -/
def rowTotal (a : Mat) (i : Nat) : ℚ :=
  ((List.range a.ncols).map (fun j => a.entry i j)).sum

/-- Sum of a column of a matrix. -/
def colTotal (a : Mat) (j : Nat) : ℚ :=
  ((List.range a.nrows).map (fun i => a.entry i j)).sum

/-- Sum of all entries of a matrix. -/
def matTotal (a : Mat) : ℚ :=
  ((List.range a.nrows).map (fun i => rowTotal a i)).sum

/-- Model of `np.mean(a)`: the sum of all entries divided by their number. -/
def matMean (a : Mat) : ℚ := matTotal a / ((a.nrows : ℚ) * (a.ncols : ℚ))

/-- Model of `np.mean(a, axis=1)` at index `i`. -/
def rowMean (a : Mat) (i : Nat) : ℚ := rowTotal a i / (a.ncols : ℚ)

/-- Model of `np.mean(a, axis=0)` at index `j`. -/
def colMean (a : Mat) (j : Nat) : ℚ := colTotal a j / (a.nrows : ℚ)

/-- Sum of squared entries of row `i` (model of `np.sum(a * a, axis=1)[i]`). -/
def rowSumSq (a : Mat) (i : Nat) : ℚ :=
  ((List.range a.ncols).map (fun j => a.entry i j * a.entry i j)).sum

/-- Sum of squares of all entries (model of `np.sum(a * a)`). -/
def sumSquares (a : Mat) : ℚ :=
  ((List.range a.nrows).map (fun i => rowSumSq a i)).sum

/-- In-place update `a[rows[:, np.newaxis], cols] -= l` as a pure function
(the source always passes duplicate-free index lists). -/
def subtractAt (a : Mat) (rows cols : List Nat) (l : Mat) : Mat :=
  ⟨a.nrows, a.ncols, fun r c =>
    if r ∈ rows ∧ c ∈ cols then
      a.entry r c - l.entry (rows.indexOf r) (cols.indexOf c)
    else a.entry r c⟩

/-- In-place update `a[rows[:, np.newaxis], cols] += l` as a pure function. -/
def addAt (a : Mat) (rows cols : List Nat) (l : Mat) : Mat :=
  ⟨a.nrows, a.ncols, fun r c =>
    if r ∈ rows ∧ c ∈ cols then
      a.entry r c + l.entry (rows.indexOf r) (cols.indexOf c)
    else a.entry r c⟩

/-- Model of `np.random.shuffle(a.flat)`: re-index the flattened entries by
the permutation `p` supplied by the randomness oracle. -/
def shuffleFlat (a : Mat) (p : Nat → Nat) : Mat :=
  ⟨a.nrows, a.ncols, fun i j =>
    let k := p (i * a.ncols + j)
    a.entry (k / a.ncols) (k % a.ncols)⟩

/-- Row/column index sets of a bicluster (`models.Bicluster`). -/
structure Bicluster where
  rows : List Nat
  cols : List Nat
deriving DecidableEq

/-- Ordered sequence of biclusters (`models.Biclustering`). -/
structure Biclustering where
  biclusters : List Bicluster
deriving DecidableEq

/-- The constructor parameters of `Plaid.__init__`. -/
structure Config where
  num_biclusters : Int
  fit_background_layer : Bool
  row_prunning_threshold : ℚ
  col_prunning_threshold : ℚ
  significance_tests : Int
  back_fitting_steps : Int
  initialization_iterations : Int
  iterations_per_layer : Int
  return_layers : Bool

/-- Model of `Plaid._validate_parameters` (raising becomes `Except.error`). -/
def validateParameters (cfg : Config) : Except String Unit :=
  if cfg.num_biclusters ≤ 0 ∨ cfg.initialization_iterations ≤ 0 ∨
      cfg.iterations_per_layer < 0 then
    Except.error "num_biclusters, initialization_iterations and iterations_per_layer values must all be greater than zero"
  else if cfg.significance_tests < 0 ∨ cfg.back_fitting_steps < 0 then
    Except.error "significance_tests and back_fitting_steps must be greater than or equal to zero"
  else if cfg.row_prunning_threshold ≥ 1 ∨ cfg.row_prunning_threshold ≤ 0 ∨
      cfg.col_prunning_threshold ≥ 1 ∨ cfg.col_prunning_threshold ≤ 0 then
    Except.error "both row_prunning_threshold and col_prunning_threshold must be greater than zero and less than 1.0"
  else Except.ok ()

/-- Model of `Plaid._create_layer`: `mean + row_effects[:, np.newaxis] + col_effects`
with `mean = np.mean(residuals)`, `row_effects = np.mean(residuals, axis=1) - mean`,
`col_effects = np.mean(residuals, axis=0) - mean`. -/
def createLayer (residuals : Mat) : Mat :=
  ⟨residuals.nrows, residuals.ncols, fun i j =>
    matMean residuals + (rowMean residuals i - matMean residuals) +
      (colMean residuals j - matMean residuals)⟩

/-- Model of `Plaid._prune`: keep the rows whose squared deviation from the
layer is below `(1 - prunning_threshold)` times their squared residual. -/
def prune (residuals layer : Mat) (rows cols : List Nat)
    (prunning_threshold : ℚ) : List Nat :=
  let res := subMat residuals rows cols
  let diff := matSub res layer
  let selected := (List.range rows.length).filter
    (fun i => rowSumSq diff i < (1 - prunning_threshold) * rowSumSq res i)
  selected.map (fun i => rows.getD i 0)

/-- Model of `Plaid._kmeans_initialization`: given the label vector produced
by the external `k_means` primitive, count the members of the two clusters
and return the indices of the smaller one (ties resolved toward label 0). -/
def kmeansInitialization (labels : List Nat) : List Nat :=
  let count0 := labels.count 0
  let count1 := labels.count 1
  if count0 ≤ count1 then
    (List.range labels.length).filter (fun i => labels.getD i 0 = 0)
  else
    (List.range labels.length).filter (fun i => labels.getD i 0 = 1)

/-- Labels returned by the two `k_means` calls of one
`_generate_initial_bicluster` (rows on the matrix, columns on its transpose). -/
structure FitInit where
  rowLabels : List Nat
  colLabels : List Nat

/-- Model of `Plaid._generate_initial_bicluster`. -/
def generateInitialBicluster (o : FitInit) : List Nat × List Nat :=
  (kmeansInitialization o.rowLabels, kmeansInitialization o.colLabels)

/-- The refinement loop of `Plaid._fit_layer` (`for i in range(iterations_per_layer)`),
with the remaining round budget as fuel.  Each round saves `rows_old`, prunes
rows, prunes columns against `rows_old`, breaks on an empty selection and
otherwise refits the layer. -/
def fitLayerLoop (cfg : Config) (residuals : Mat) :
    Nat → List Nat → List Nat → Mat → List Nat × List Nat × Mat
  | 0, rows, cols, layer => (rows, cols, layer)
  | fuel + 1, rows, cols, layer =>
    let rows_old := rows
    let rows1 := prune residuals layer rows cols cfg.row_prunning_threshold
    let cols1 := prune (transpose residuals) (transpose layer) cols rows_old
      cfg.col_prunning_threshold
    if rows1.length = 0 ∨ cols1.length = 0 then (rows1, cols1, layer)
    else fitLayerLoop cfg residuals fuel rows1 cols1
      (createLayer (subMat residuals rows1 cols1))

/-- Model of `Plaid._fit_layer`. -/
def fitLayer (cfg : Config) (o : FitInit) (residuals : Mat) :
    List Nat × List Nat × Mat :=
  let rc := generateInitialBicluster o
  fitLayerLoop cfg residuals cfg.iterations_per_layer.toNat rc.1 rc.2
    (createLayer (subMat residuals rc.1 rc.2))

/-- Randomness consumed by one significance trial: the permutation used by
`np.random.shuffle` and the `k_means` labels of the nested `_fit_layer` call. -/
structure TrialOracle where
  perm : Nat → Nat
  rowLabels : List Nat
  colLabels : List Nat

/-- The trial loop of `Plaid._is_significant`.  The state pairs the caller's
`residuals` array with the local `shuffled_residuals` array; each trial
shuffles the local array in place (the shuffles accumulate), refits a layer
on it, and returns `false` as soon as a trial's sum of squares reaches the
candidate's `score`. -/
def sigLoop (cfg : Config) (orc : Nat → TrialOracle) (score : ℚ) :
    Nat → Nat → Mat × Mat → Bool × (Mat × Mat)
  | _, 0, st => (true, st)
  | i, fuel + 1, st =>
    let shuffled1 := shuffleFlat st.2 (orc i).perm
    let f := fitLayer cfg ⟨(orc i).rowLabels, (orc i).colLabels⟩ shuffled1
    if score ≤ sumSquares f.2.2 then (false, (st.1, shuffled1))
    else sigLoop cfg orc score (i + 1) fuel (st.1, shuffled1)

/-- Model of `Plaid._is_significant`.  Returns the boolean verdict together
with the final value of the caller's `residuals` array (the second state
component starts as `np.copy(residuals)`, so both components start equal). -/
def isSignificantState (cfg : Config) (orc : Nat → TrialOracle)
    (residuals layer : Mat) : Bool × Mat :=
  let r := sigLoop cfg orc (sumSquares layer) 0 cfg.significance_tests.toNat
    (residuals, residuals)
  (r.1, r.2.1)

/-- The state of one `Plaid.run`: the caller's array `dataArr`, the working
`residuals` copy, and the aligned `layers` and `biclusters` lists. -/
structure PlaidState where
  dataArr : Mat
  residuals : Mat
  layers : List Mat
  biclusters : List Bicluster

/-- One visit of `_back_fitting`'s inner loop for the pair at index `j`:
restore the layer into the residual, refit it, subtract it back out. -/
def backFitPair (b : Bicluster) (j : Nat) (st : Mat × List Mat) :
    Mat × List Mat :=
  let l := st.2.getD j matDefault
  let r1 := addAt st.1 b.rows b.cols l
  let l1 := createLayer (subMat r1 b.rows b.cols)
  let r2 := subtractAt r1 b.rows b.cols l1
  (r2, st.2.set j l1)

/-- One pass of `_back_fitting`'s inner loop
(`for j, b in zip(range(len(layers)), biclusters)`). -/
def backFitPass (biclusters : List Bicluster) (st : Mat × List Mat) :
    Mat × List Mat :=
  ((List.range st.2.length).zip biclusters).foldl
    (fun s jb => backFitPair jb.2 jb.1 s) st

/-- The outer loop of `_back_fitting` (`for i in range(back_fitting_steps)`). -/
def backFitIter (biclusters : List Bicluster) :
    Nat → Mat × List Mat → Mat × List Mat
  | 0, st => st
  | k + 1, st => backFitIter biclusters k (backFitPass biclusters st)

/-- Model of `Plaid._back_fitting`: mutates the residual matrix and the
layer list of the state; the bicluster list is only read. -/
def backFitting (cfg : Config) (st : PlaidState) : PlaidState :=
  let p := backFitIter st.biclusters cfg.back_fitting_steps.toNat
    (st.residuals, st.layers)
  { st with residuals := p.1, layers := p.2 }

/-- Per-discovery-iteration randomness: the `k_means` labels of the top-level
`_fit_layer` call and the oracles of the significance trials. -/
structure IterOracle where
  rowLabels : List Nat
  colLabels : List Nat
  trials : Nat → TrialOracle

/-- The discovery loop of `Plaid.run` (`for i in range(self.num_biclusters)`).
Fit a layer; break if its row or column set is empty; otherwise run the
significance test (which leaves the residuals unchanged in value), break if
it rejects, and otherwise subtract the layer, append the pair and back-fit. -/
def discoverLoop (cfg : Config) (orc : Nat → IterOracle) :
    Nat → Nat → PlaidState → PlaidState
  | _, 0, st => st
  | i, fuel + 1, st =>
    let o := orc i
    let f := fitLayer cfg ⟨o.rowLabels, o.colLabels⟩ st.residuals
    let rows := f.1
    let cols := f.2.1
    let layer := f.2.2
    if rows.length = 0 ∨ cols.length = 0 then st
    else
      let sig := isSignificantState cfg o.trials st.residuals layer
      let st1 := { st with residuals := sig.2 }
      if sig.1 = false then st1
      else
        let st2 := { st1 with
          residuals := subtractAt st1.residuals rows cols layer,
          layers := st1.layers ++ [layer],
          biclusters := st1.biclusters ++ [Bicluster.mk rows cols] }
        discoverLoop cfg orc (i + 1) fuel (backFitting cfg st2)

/-- The state right after `residuals = np.copy(data)`: the caller's array and
the fresh copy hold the same values, and both lists are empty. -/
def initState (data : Mat) : PlaidState :=
  { dataArr := data, residuals := data, layers := [], biclusters := [] }

/-- The optional background step of `Plaid.run`: fit a whole-matrix layer,
record it, subtract it, and record the all-rows/all-columns bicluster. -/
def backgroundStep (cfg : Config) (st : PlaidState) : PlaidState :=
  if cfg.fit_background_layer then
    { st with
      residuals := matSub st.residuals (createLayer st.residuals),
      layers := st.layers ++ [createLayer st.residuals],
      biclusters := st.biclusters ++
        [Bicluster.mk (List.range st.residuals.nrows)
          (List.range st.residuals.ncols)] }
  else st

/-- The state of `Plaid.run` after the discovery loop, before finalization. -/
def runCore (cfg : Config) (orc : Nat → IterOracle) (data : Mat) : PlaidState :=
  discoverLoop cfg orc 0 cfg.num_biclusters.toNat
    (backgroundStep cfg (initState data))

/-- The two possible return shapes of `Plaid.run`. -/
inductive RunResult where
  | biclustersOnly (b : Biclustering)
  | withLayers (b : Biclustering) (layers : List Mat)

/-- Model of `Plaid.run`, paired with the final value of the caller's `data`
array.  In layers mode the residual matrix is appended as a trailing
layer/bicluster pair; in biclusters-only mode with a background layer the
index-0 entry is popped from the list the returned `Biclustering` aliases. -/
def run (cfg : Config) (orc : Nat → IterOracle) (data : Mat) :
    Except String (RunResult × Mat) :=
  match validateParameters cfg with
  | Except.error e => Except.error e
  | Except.ok _ =>
    let st := runCore cfg orc data
    if cfg.return_layers then
      Except.ok (RunResult.withLayers
        (Biclustering.mk (st.biclusters ++
          [Bicluster.mk (List.range data.nrows) (List.range data.ncols)]))
        (st.layers ++ [st.residuals]), st.dataArr)
    else if cfg.fit_background_layer then
      Except.ok (RunResult.biclustersOnly
        (Biclustering.mk st.biclusters.tail), st.dataArr)
    else
      Except.ok (RunResult.biclustersOnly
        (Biclustering.mk st.biclusters), st.dataArr)

/-- The accumulated shuffled matrix used by successive significance trials:
starting from the shuffled-array value `s` just before trial `i`, apply the
permutations of trials `i, i+1, …, i+k`. -/
def shuffleSeq (orc : Nat → TrialOracle) (i : Nat) (s : Mat) : Nat → Mat
  | 0 => shuffleFlat s (orc i).perm
  | k + 1 => shuffleFlat (shuffleSeq orc i s k) (orc (i + k + 1)).perm

/-- The matrix on which significance trial `k` fits its test layer
(the shuffles of `_is_significant` accumulate on one array). -/
def trialMat (orc : Nat → TrialOracle) (residuals : Mat) (k : Nat) : Mat :=
  shuffleSeq orc 0 residuals k

/-- The test score of significance trial `k`: the sum of squares of the
layer fitted on that trial's shuffled matrix. -/
def trialScore (cfg : Config) (orc : Nat → TrialOracle) (residuals : Mat)
    (k : Nat) : ℚ :=
  sumSquares (fitLayer cfg ⟨(orc k).rowLabels, (orc k).colLabels⟩
    (trialMat orc residuals k)).2.2

/-- The layer value described by the spec at `(i, j)`:
`mean + row_effect[i] + col_effect[j]` with `mean` the average of all
entries, `row_effect[i]` the average of row `i` minus the mean and
`col_effect[j]` the average of column `j` minus the mean. -/
def specLayerValue (a : Mat) (i j : Nat) : ℚ :=
  let mean := matTotal a / ((a.nrows : ℚ) * (a.ncols : ℚ))
  let rowEffect := rowTotal a i / (a.ncols : ℚ) - mean
  let colEffect := colTotal a j / (a.nrows : ℚ) - mean
  mean + rowEffect + colEffect

/-- A parameter configuration whose pruning-round budget is zero while every
other parameter is well inside its documented range. -/
def cfgZeroIter : Config :=
  { num_biclusters := 1, fit_background_layer := true,
    row_prunning_threshold := 1/2, col_prunning_threshold := 1/2,
    significance_tests := 3, back_fitting_steps := 1,
    initialization_iterations := 6, iterations_per_layer := 0,
    return_layers := false }

/-- Parameters with the significance test disabled. -/
def w2Cfg : Config :=
  { num_biclusters := 1, fit_background_layer := false,
    row_prunning_threshold := 1/2, col_prunning_threshold := 1/2,
    significance_tests := 0, back_fitting_steps := 0,
    initialization_iterations := 1, iterations_per_layer := 1,
    return_layers := false }

/-- A concrete trial oracle (identity shuffles, singleton labels). -/
def w2Orc : Nat → TrialOracle := fun _ => ⟨id, [0], [0]⟩

/-- A concrete 1×1 residual matrix for the significance witness. -/
def w2M : Mat := ⟨1, 1, fun _ _ => 1⟩

/-- A concrete 1×1 candidate layer for the significance witness. -/
def w2L : Mat := ⟨1, 1, fun _ _ => 1⟩

/-- Parameters for a tiny concrete run without a background layer. -/
def w9Cfg : Config :=
  { num_biclusters := 1, fit_background_layer := false,
    row_prunning_threshold := 1/2, col_prunning_threshold := 1/2,
    significance_tests := 0, back_fitting_steps := 0,
    initialization_iterations := 1, iterations_per_layer := 1,
    return_layers := false }

/-- A concrete 1×1 input matrix. -/
def w9Data : Mat := ⟨1, 1, fun _ _ => 1⟩

/-- A concrete randomness oracle: every clustering call labels the single
vector 0, and every shuffle is the identity permutation. -/
def w9Orc : Nat → IterOracle := fun _ => ⟨[0], [0], fun _ => ⟨id, [0], [0]⟩⟩

/-- Parameters for a tiny concrete run with a background layer. -/
def w3Cfg : Config :=
  { num_biclusters := 1, fit_background_layer := true,
    row_prunning_threshold := 1/2, col_prunning_threshold := 1/2,
    significance_tests := 0, back_fitting_steps := 0,
    initialization_iterations := 1, iterations_per_layer := 1,
    return_layers := false }

/-- A concrete 1×1 input matrix for the trimming witness. -/
def w3Data : Mat := ⟨1, 1, fun _ _ => 1⟩

/-- A concrete randomness oracle for the trimming witness. -/
def w3Orc : Nat → IterOracle := fun _ => ⟨[0], [0], fun _ => ⟨id, [0], [0]⟩⟩

/-- Parameters for the alignment witness. -/
def w8Cfg : Config :=
  { num_biclusters := 1, fit_background_layer := true,
    row_prunning_threshold := 1/2, col_prunning_threshold := 1/2,
    significance_tests := 0, back_fitting_steps := 1,
    initialization_iterations := 1, iterations_per_layer := 1,
    return_layers := true }

/-- A concrete 1×1 input matrix for the alignment witness. -/
def w8Data : Mat := ⟨1, 1, fun _ _ => 1⟩

/-- A concrete randomness oracle for the alignment witness. -/
def w8Orc : Nat → IterOracle := fun _ => ⟨[0], [0], fun _ => ⟨id, [0], [0]⟩⟩

/-- A 1×1 residual submatrix with entry 2 (counterexample data for pruning
monotonicity). -/
def cexMat : Mat := ⟨1, 1, fun _ _ => 2⟩

/-- A 1×1 layer with entry 1 fitted against `cexMat`. -/
def cexLayer : Mat := ⟨1, 1, fun _ _ => 1⟩

/-- A 1×1 residual submatrix with entry 2 (witness data for the pruning
membership rule). -/
def w1Mat : Mat := ⟨1, 1, fun _ _ => 2⟩

/-- A 1×1 layer with entry 1 fitted against `w1Mat`. -/
def w1Layer : Mat := ⟨1, 1, fun _ _ => 1⟩

/-- A concrete 2×2 matrix (witness data for the layer closed form). -/
def w7Mat : Mat := ⟨2, 2, fun i j => (i : ℚ) + 2 * (j : ℚ)⟩

end Plaid

namespace Plaid

/-- Claim C4 (code evaluation at the failing input): `_validate_parameters`
accepts `iterations_per_layer = 0` even though the claim (and the code's own
error message) requires rejecting a non-positive pruning-round budget. -/
theorem validateParameters_accepts_zero_layer_budget :
    validateParameters cfgZeroIter = Except.ok () ∧
      cfgZeroIter.iterations_per_layer ≤ 0 := by
  constructor
  · simp only [validateParameters, cfgZeroIter]
    norm_num
  · norm_num [cfgZeroIter]

/-- Claim C6: within one refinement round of `_fit_layer`, the row pruning is
scored with the start-of-round row and column sets, and the column pruning is
scored against the start-of-round row set `rows` (not the freshly pruned row
set): one round of the loop prunes rows to
`prune residuals layer rows cols row_threshold`, prunes columns to
`prune residualsᵀ layerᵀ cols rows col_threshold`, stops on an empty
selection, and otherwise refits the layer on the pruned submatrix. -/
theorem fitLayerLoop_round_structure (cfg : Config) (residuals : Mat)
    (fuel : Nat) (rows cols : List Nat) (layer : Mat) :
    fitLayerLoop cfg residuals (fuel + 1) rows cols layer =
      (if (prune residuals layer rows cols cfg.row_prunning_threshold).length = 0 ∨
          (prune (transpose residuals) (transpose layer) cols rows
            cfg.col_prunning_threshold).length = 0 then
        (prune residuals layer rows cols cfg.row_prunning_threshold,
         prune (transpose residuals) (transpose layer) cols rows
           cfg.col_prunning_threshold, layer)
      else
        fitLayerLoop cfg residuals fuel
          (prune residuals layer rows cols cfg.row_prunning_threshold)
          (prune (transpose residuals) (transpose layer) cols rows
            cfg.col_prunning_threshold)
          (createLayer (subMat residuals
            (prune residuals layer rows cols cfg.row_prunning_threshold)
            (prune (transpose residuals) (transpose layer) cols rows
              cfg.col_prunning_threshold)))) := rfl

theorem sigLoop_preserves_first (cfg : Config) (orc : Nat → TrialOracle)
    (score : ℚ) :
    ∀ fuel i st, (sigLoop cfg orc score i fuel st).2.1 = st.1 := by
  intro fuel
  induction fuel with
  | zero => intro i st; rfl
  | succ n ih =>
    intro i st
    simp only [sigLoop]
    split
    · rfl
    · exact ih (i + 1) (st.1, shuffleFlat st.2 (orc i).perm)

theorem rowSumSq_nonneg (a : Mat) (i : Nat) : 0 ≤ rowSumSq a i := by
  apply List.sum_nonneg
  intro x hx
  simp only [List.mem_map] at hx
  obtain ⟨j, _, rfl⟩ := hx
  exact mul_self_nonneg _

theorem length_filter_mono {α : Type} (l : List α) (p q : α → Bool)
    (h : ∀ a ∈ l, p a = true → q a = true) :
    (l.filter p).length ≤ (l.filter q).length := by
  induction l with
  | nil => simp
  | cons a t ih =>
    have ht : ∀ x ∈ t, p x = true → q x = true :=
      fun x hx => h x (List.mem_cons_of_mem a hx)
    by_cases hp : p a = true
    · have hq := h a (List.mem_cons_self a t) hp
      simp only [List.filter_cons, hp, hq, if_true, List.length_cons]
      exact Nat.succ_le_succ (ih ht)
    · have hp' : p a = false := by
        cases hpa : p a
        · rfl
        · exact absurd hpa hp
      rw [List.filter_cons, List.filter_cons]
      simp only [hp', Bool.false_eq_true, if_false]
      cases hq : q a
      · simp only [Bool.false_eq_true, if_false]
        exact ih ht
      · simp only [if_true, List.length_cons]
        exact Nat.le_succ_of_le (ih ht)

/-- Claim C1: in each pruning step, the row at position `i` of the current
row set is retained if and only if the sum over the current column set of
`(residual[i,j] - layer[i,j])^2` is strictly less than
`(1 - prunning_threshold)` times the sum over the current column set of
`residual[i,j]^2`. -/
theorem prune_retains_iff (M L : Mat) (rows cols : List Nat) (th : ℚ)
    (hnd : rows.Nodup) (i : Nat) (hi : i < rows.length) :
    rows.getD i 0 ∈ prune M L rows cols th ↔
      ((List.range cols.length).map (fun j =>
          (M.entry (rows.getD i 0) (cols.getD j 0) - L.entry i j) *
          (M.entry (rows.getD i 0) (cols.getD j 0) - L.entry i j))).sum <
        (1 - th) * ((List.range cols.length).map (fun j =>
          M.entry (rows.getD i 0) (cols.getD j 0) *
          M.entry (rows.getD i 0) (cols.getD j 0))).sum := by
  have hcond : ∀ a : Nat,
      (rowSumSq (matSub (subMat M rows cols) L) a <
        (1 - th) * rowSumSq (subMat M rows cols) a) =
      (((List.range cols.length).map (fun j =>
          (M.entry (rows.getD a 0) (cols.getD j 0) - L.entry a j) *
          (M.entry (rows.getD a 0) (cols.getD j 0) - L.entry a j))).sum <
        (1 - th) * ((List.range cols.length).map (fun j =>
          M.entry (rows.getD a 0) (cols.getD j 0) *
          M.entry (rows.getD a 0) (cols.getD j 0))).sum) := fun a => rfl
  simp only [prune, List.mem_map, List.mem_filter, List.mem_range,
    decide_eq_true_eq, hcond]
  constructor
  · rintro ⟨a, ⟨ha, hca⟩, hEq⟩
    have hgi := List.getD_eq_getElem rows 0 hi
    have hga := List.getD_eq_getElem rows 0 ha
    rw [hga, hgi] at hEq
    have : a = i := (hnd.getElem_inj_iff).mp hEq
    subst this
    exact hca
  · intro h
    exact ⟨i, ⟨hi, h⟩, rfl⟩

theorem prune_retains_iff_witness :
    [0].Nodup ∧ 0 < [0].length ∧ (0 : Nat) ∈ prune w1Mat w1Layer [0] [0] (1/2) :=
  ⟨by decide, by decide,
    (prune_retains_iff w1Mat w1Layer [0] [0] (1/2) (by decide) 0 (by decide)).mpr
      (by norm_num [w1Mat, w1Layer])⟩

/-- Claim C5 counterexample: raising the pruning threshold from 1/2 to 9/10
strictly decreases the number of retained rows for the residual `cexMat` and
layer `cexLayer`, so the retained selection is not weakly increasing in the
threshold. -/
theorem prune_monotone_counterexample :
    (1 : ℚ)/2 ≤ 9/10 ∧
      (prune cexMat cexLayer [0] [0] (9/10)).length <
        (prune cexMat cexLayer [0] [0] (1/2)).length := by
  have h1 : prune cexMat cexLayer [0] [0] (9/10) = [] := by
    norm_num [prune, subMat, matSub, rowSumSq, cexMat, cexLayer, List.filter]
  have h2 : prune cexMat cexLayer [0] [0] (1/2) = [0] := by
    norm_num [prune, subMat, matSub, rowSumSq, cexMat, cexLayer, List.filter]
  refine ⟨by norm_num, ?_⟩
  rw [h1, h2]
  decide

/-- Claim C5 (amended): for a fixed residual submatrix and layer, the size of
the retained selection is weakly monotonically decreasing in the pruning
threshold: raising the threshold toward 1 never increases it. -/
theorem prune_threshold_antitone (M L : Mat) (rows cols : List Nat)
    (t t' : ℚ) (h : t ≤ t') :
    (prune M L rows cols t').length ≤ (prune M L rows cols t).length := by
  simp only [prune, List.length_map]
  apply length_filter_mono
  intro a _ ha
  simp only [decide_eq_true_eq] at ha ⊢
  have h0 : (0 : ℚ) ≤ rowSumSq (subMat M rows cols) a := rowSumSq_nonneg _ _
  have hmul : (1 - t') * rowSumSq (subMat M rows cols) a ≤
      (1 - t) * rowSumSq (subMat M rows cols) a :=
    mul_le_mul_of_nonneg_right (by linarith) h0
  exact lt_of_lt_of_le ha hmul

theorem prune_threshold_antitone_witness :
    (1 : ℚ)/2 ≤ 9/10 ∧
      (prune cexMat cexLayer [0] [0] (9/10)).length ≤
        (prune cexMat cexLayer [0] [0] (1/2)).length :=
  ⟨by norm_num,
    prune_threshold_antitone cexMat cexLayer [0] [0] (1/2) (9/10) (by norm_num)⟩

/-- Claim C7: for a non-empty submatrix, `_create_layer` returns a layer of
the same shape whose value at `(i, j)` is `mean + row_effect[i] + col_effect[j]`
with `mean` the average of all entries, `row_effect[i]` the average of row `i`
minus the mean, and `col_effect[j]` the average of column `j` minus the mean. -/
theorem createLayer_closed_form (a : Mat) (h1 : 0 < a.nrows)
    (h2 : 0 < a.ncols) :
    (createLayer a).nrows = a.nrows ∧ (createLayer a).ncols = a.ncols ∧
      ∀ i j, (createLayer a).entry i j = specLayerValue a i j :=
  ⟨rfl, rfl, fun _ _ => rfl⟩

theorem createLayer_closed_form_witness :
    0 < w7Mat.nrows ∧ 0 < w7Mat.ncols ∧
      (createLayer w7Mat).entry 0 1 = specLayerValue w7Mat 0 1 :=
  ⟨by decide, by decide,
    (createLayer_closed_form w7Mat (by decide) (by decide)).2.2 0 1⟩

/-- Claim C10: `_is_significant` never mutates the residual matrix it is
given; every trial shuffles the private copy, so the caller's `residuals`
array holds its original value when the call returns. -/
theorem isSignificant_preserves_residuals (cfg : Config)
    (orc : Nat → TrialOracle) (residuals layer : Mat) :
    (isSignificantState cfg orc residuals layer).2 = residuals := by
  simp only [isSignificantState]
  exact sigLoop_preserves_first cfg orc (sumSquares layer)
    cfg.significance_tests.toNat 0 (residuals, residuals)

theorem foldl_backFitPair_snd_length (l : List (Nat × Bicluster)) :
    ∀ st : Mat × List Mat,
      ((l.foldl (fun s jb => backFitPair jb.2 jb.1 s) st).2).length =
        st.2.length := by
  induction l with
  | nil => intro st; rfl
  | cons a t ih =>
    intro st
    rw [List.foldl_cons, ih]
    simp [backFitPair, List.length_set]

theorem backFitPass_snd_length (bs : List Bicluster) (st : Mat × List Mat) :
    ((backFitPass bs st).2).length = st.2.length := by
  simp only [backFitPass]
  exact foldl_backFitPair_snd_length _ st

theorem backFitIter_snd_length (bs : List Bicluster) :
    ∀ (k : Nat) (st : Mat × List Mat),
      ((backFitIter bs k st).2).length = st.2.length := by
  intro k
  induction k with
  | zero => intro st; rfl
  | succ n ih =>
    intro st
    simp only [backFitIter]
    rw [ih, backFitPass_snd_length]

theorem backFitting_layers_length (cfg : Config) (st : PlaidState) :
    (backFitting cfg st).layers.length = st.layers.length := by
  simp only [backFitting]
  exact backFitIter_snd_length st.biclusters cfg.back_fitting_steps.toNat
    (st.residuals, st.layers)

theorem backFitting_biclusters (cfg : Config) (st : PlaidState) :
    (backFitting cfg st).biclusters = st.biclusters := rfl

theorem backFitting_dataArr (cfg : Config) (st : PlaidState) :
    (backFitting cfg st).dataArr = st.dataArr := rfl

theorem discoverLoop_dataArr (cfg : Config) (orc : Nat → IterOracle) :
    ∀ (fuel i : Nat) (st : PlaidState),
      (discoverLoop cfg orc i fuel st).dataArr = st.dataArr := by
  intro fuel
  induction fuel with
  | zero => intro i st; rfl
  | succ n ih =>
    intro i st
    simp only [discoverLoop]
    split
    · rfl
    · split
      · rfl
      · rw [ih]
        rfl

theorem discoverLoop_biclusters_extend (cfg : Config) (orc : Nat → IterOracle) :
    ∀ (fuel i : Nat) (st : PlaidState),
      st.biclusters <+: (discoverLoop cfg orc i fuel st).biclusters := by
  intro fuel
  induction fuel with
  | zero => intro i st; exact List.prefix_rfl
  | succ n ih =>
    intro i st
    simp only [discoverLoop]
    split
    · exact List.prefix_rfl
    · split
      · exact List.prefix_rfl
      · refine List.IsPrefix.trans ?_ (ih (i + 1) (backFitting cfg _))
        rw [backFitting_biclusters]
        exact List.prefix_append _ _

theorem discoverLoop_alignment (cfg : Config) (orc : Nat → IterOracle) :
    ∀ (fuel i : Nat) (st : PlaidState),
      st.layers.length = st.biclusters.length →
      (discoverLoop cfg orc i fuel st).layers.length =
        (discoverLoop cfg orc i fuel st).biclusters.length := by
  intro fuel
  induction fuel with
  | zero => intro i st h; exact h
  | succ n ih =>
    intro i st h
    simp only [discoverLoop]
    split
    · exact h
    · split
      · exact h
      · apply ih
        rw [backFitting_layers_length, backFitting_biclusters]
        simp [h]

theorem runCore_dataArr (cfg : Config) (orc : Nat → IterOracle) (data : Mat) :
    (runCore cfg orc data).dataArr = data := by
  simp only [runCore]
  rw [discoverLoop_dataArr]
  simp only [backgroundStep]
  split <;> rfl

/-- Claim C9: for every input matrix and every configuration that passes
validation, `run` succeeds and the caller's input array still holds exactly
its original value when `run` returns (the algorithm works on the
`np.copy` of the input recorded in the initial state). -/
theorem run_preserves_input (cfg : Config) (orc : Nat → IterOracle)
    (data : Mat) (h : validateParameters cfg = Except.ok ()) :
    ∃ r, run cfg orc data = Except.ok (r, data) := by
  have hd := runCore_dataArr cfg orc data
  simp only [run, h]
  by_cases hret : cfg.return_layers = true
  · exact ⟨RunResult.withLayers
      (Biclustering.mk ((runCore cfg orc data).biclusters ++
        [Bicluster.mk (List.range data.nrows) (List.range data.ncols)]))
      ((runCore cfg orc data).layers ++ [(runCore cfg orc data).residuals]),
      by simp only [hret, if_true, hd]⟩
  · have hret' : cfg.return_layers = false := by
      cases hx : cfg.return_layers
      · rfl
      · exact absurd hx hret
    by_cases hbg : cfg.fit_background_layer = true
    · exact ⟨RunResult.biclustersOnly
        (Biclustering.mk (runCore cfg orc data).biclusters.tail),
        by simp only [hret', Bool.false_eq_true, if_false, hbg, if_true, hd]⟩
    · have hbg' : cfg.fit_background_layer = false := by
        cases hx : cfg.fit_background_layer
        · rfl
        · exact absurd hx hbg
      exact ⟨RunResult.biclustersOnly
        (Biclustering.mk (runCore cfg orc data).biclusters),
        by simp only [hret', hbg', Bool.false_eq_true, if_false, hd]⟩

theorem backgroundStep_alignment (cfg : Config) (data : Mat) :
    (backgroundStep cfg (initState data)).layers.length =
      (backgroundStep cfg (initState data)).biclusters.length := by
  simp only [backgroundStep, initState]
  split <;> rfl

theorem runCore_alignment (cfg : Config) (orc : Nat → IterOracle) (data : Mat) :
    (runCore cfg orc data).layers.length =
      (runCore cfg orc data).biclusters.length :=
  discoverLoop_alignment cfg orc cfg.num_biclusters.toNat 0
    (backgroundStep cfg (initState data)) (backgroundStep_alignment cfg data)

/-- Claim C8: the Biclustering sequence and the LayerSet stay index-aligned
with equal length after initialization, after the background step, through
back-fitting and every discovery-loop iteration, after the loop, and in the
finalized output of either mode (the layers-mode result pairs each bicluster
with a layer, and the biclusters-only result has the length of the layer
list after the paired pop of the background entry). -/
theorem run_alignment_invariant (cfg : Config) (orc : Nat → IterOracle)
    (data : Mat) :
    (initState data).layers.length = (initState data).biclusters.length
    ∧ (backgroundStep cfg (initState data)).layers.length =
        (backgroundStep cfg (initState data)).biclusters.length
    ∧ (∀ st : PlaidState, (backFitting cfg st).layers.length = st.layers.length ∧
        (backFitting cfg st).biclusters = st.biclusters)
    ∧ (∀ i fuel st, st.layers.length = st.biclusters.length →
        (discoverLoop cfg orc i fuel st).layers.length =
          (discoverLoop cfg orc i fuel st).biclusters.length)
    ∧ (runCore cfg orc data).layers.length =
        (runCore cfg orc data).biclusters.length
    ∧ (∀ b ls d, run cfg orc data = Except.ok (RunResult.withLayers b ls, d) →
        b.biclusters.length = ls.length)
    ∧ (∀ b d, run cfg orc data = Except.ok (RunResult.biclustersOnly b, d) →
        b.biclusters.length = (if cfg.fit_background_layer then
          (runCore cfg orc data).layers.tail.length
        else (runCore cfg orc data).layers.length)) := by
  have hcore := runCore_alignment cfg orc data
  refine ⟨rfl, backgroundStep_alignment cfg data,
    fun st => ⟨backFitting_layers_length cfg st, backFitting_biclusters cfg st⟩,
    fun i fuel st h => discoverLoop_alignment cfg orc fuel i st h,
    hcore, ?_, ?_⟩
  · intro b ls d h
    cases hv : validateParameters cfg with
    | error e =>
      simp only [run, hv] at h
      exact Except.noConfusion h
    | ok u =>
      simp only [run, hv] at h
      by_cases hret : cfg.return_layers = true
      · simp only [hret, if_true, Except.ok.injEq, Prod.mk.injEq,
          RunResult.withLayers.injEq] at h
        obtain ⟨⟨hb, hl⟩, _⟩ := h
        subst hb
        subst hl
        simp only [Biclustering.mk.injEq] -- no-op safeguard
        simp [List.length_append, hcore]
      · have hret' : cfg.return_layers = false := by
          cases hx : cfg.return_layers
          · rfl
          · exact absurd hx hret
        by_cases hbg : cfg.fit_background_layer = true
        · simp only [hret', Bool.false_eq_true, if_false, hbg, if_true,
            Except.ok.injEq, Prod.mk.injEq] at h
          exact absurd h.1 (by intro hx; exact RunResult.noConfusion hx)
        · have hbg' : cfg.fit_background_layer = false := by
            cases hx : cfg.fit_background_layer
            · rfl
            · exact absurd hx hbg
          simp only [hret', hbg', Bool.false_eq_true, if_false,
            Except.ok.injEq, Prod.mk.injEq] at h
          exact absurd h.1 (by intro hx; exact RunResult.noConfusion hx)
  · intro b d h
    cases hv : validateParameters cfg with
    | error e =>
      simp only [run, hv] at h
      exact Except.noConfusion h
    | ok u =>
      simp only [run, hv] at h
      by_cases hret : cfg.return_layers = true
      · simp only [hret, if_true, Except.ok.injEq, Prod.mk.injEq] at h
        exact absurd h.1 (by intro hx; exact RunResult.noConfusion hx)
      · have hret' : cfg.return_layers = false := by
          cases hx : cfg.return_layers
          · rfl
          · exact absurd hx hret
        by_cases hbg : cfg.fit_background_layer = true
        · simp only [hret', Bool.false_eq_true, if_false, hbg, if_true,
            Except.ok.injEq, Prod.mk.injEq, RunResult.biclustersOnly.injEq] at h
          obtain ⟨hb, _⟩ := h
          subst hb
          simp only [hbg, if_true, List.length_tail, hcore]
        · have hbg' : cfg.fit_background_layer = false := by
            cases hx : cfg.fit_background_layer
            · rfl
            · exact absurd hx hbg
          simp only [hret', hbg', Bool.false_eq_true, if_false,
            Except.ok.injEq, Prod.mk.injEq, RunResult.biclustersOnly.injEq] at h
          obtain ⟨hb, _⟩ := h
          subst hb
          simp only [hbg', Bool.false_eq_true, if_false, hcore]

theorem run_alignment_invariant_witness :
    (initState w8Data).layers.length = (initState w8Data).biclusters.length ∧
      (discoverLoop w8Cfg w8Orc 0 1 (initState w8Data)).layers.length =
        (discoverLoop w8Cfg w8Orc 0 1 (initState w8Data)).biclusters.length :=
  ⟨rfl, (run_alignment_invariant w8Cfg w8Orc w8Data).2.2.2.1 0 1
    (initState w8Data) rfl⟩

/-- Claim C3: with background fitting enabled, a biclusters-only run returns
the internal bicluster sequence with its head — the full-matrix background
entry — removed, while a layers-mode run returns the Biclustering and
LayerSet with the background entry first (the head bicluster spans all rows
and columns) and a trailing residual entry spanning all rows and all columns
last (the last layer is the final residual matrix). -/
theorem run_mode_trimming (cfg : Config) (orc : Nat → IterOracle) (data : Mat)
    (hbg : cfg.fit_background_layer = true)
    (hv : validateParameters cfg = Except.ok ()) :
    (cfg.return_layers = false →
      (runCore cfg orc data).biclusters.head? =
        some (Bicluster.mk (List.range data.nrows) (List.range data.ncols)) ∧
      run cfg orc data = Except.ok (RunResult.biclustersOnly
        (Biclustering.mk (runCore cfg orc data).biclusters.tail), data))
    ∧ (cfg.return_layers = true →
      run cfg orc data = Except.ok (RunResult.withLayers
        (Biclustering.mk ((runCore cfg orc data).biclusters ++
          [Bicluster.mk (List.range data.nrows) (List.range data.ncols)]))
        ((runCore cfg orc data).layers ++ [(runCore cfg orc data).residuals]),
        data) ∧
      (runCore cfg orc data).biclusters.head? =
        some (Bicluster.mk (List.range data.nrows) (List.range data.ncols)) ∧
      ((runCore cfg orc data).biclusters ++
          [Bicluster.mk (List.range data.nrows) (List.range data.ncols)]).getLast? =
        some (Bicluster.mk (List.range data.nrows) (List.range data.ncols)) ∧
      ((runCore cfg orc data).layers ++
          [(runCore cfg orc data).residuals]).getLast? =
        some (runCore cfg orc data).residuals) := by
  have hpre : (backgroundStep cfg (initState data)).biclusters =
      [Bicluster.mk (List.range data.nrows) (List.range data.ncols)] := by
    simp only [backgroundStep, initState, hbg, if_true, List.nil_append]
  have hhead : (runCore cfg orc data).biclusters.head? =
      some (Bicluster.mk (List.range data.nrows) (List.range data.ncols)) := by
    obtain ⟨t, ht⟩ := discoverLoop_biclusters_extend cfg orc
      cfg.num_biclusters.toNat 0 (backgroundStep cfg (initState data))
    show (discoverLoop cfg orc 0 cfg.num_biclusters.toNat
      (backgroundStep cfg (initState data))).biclusters.head? = _
    rw [← ht, hpre]
    rfl
  constructor
  · intro hret
    refine ⟨hhead, ?_⟩
    simp only [run, hv, hret, Bool.false_eq_true, if_false, hbg, if_true,
      runCore_dataArr]
  · intro hret
    refine ⟨?_, hhead, List.getLast?_concat _, List.getLast?_concat _⟩
    simp only [run, hv, hret, if_true, runCore_dataArr]

theorem run_mode_trimming_witness :
    w3Cfg.fit_background_layer = true ∧
      validateParameters w3Cfg = Except.ok () ∧
      ((runCore w3Cfg w3Orc w3Data).biclusters.head? =
        some (Bicluster.mk (List.range w3Data.nrows) (List.range w3Data.ncols)) ∧
      run w3Cfg w3Orc w3Data = Except.ok (RunResult.biclustersOnly
        (Biclustering.mk (runCore w3Cfg w3Orc w3Data).biclusters.tail),
        w3Data)) := by
  have hval : validateParameters w3Cfg = Except.ok () := by
    simp only [validateParameters, w3Cfg]
    norm_num
  exact ⟨rfl, hval, (run_mode_trimming w3Cfg w3Orc w3Data rfl hval).1 rfl⟩

theorem run_preserves_input_witness :
    validateParameters w9Cfg = Except.ok () ∧
      ∃ r, run w9Cfg w9Orc w9Data = Except.ok (r, w9Data) := by
  have hval : validateParameters w9Cfg = Except.ok () := by
    simp only [validateParameters, w9Cfg]
    norm_num
  exact ⟨hval, run_preserves_input w9Cfg w9Orc w9Data hval⟩

theorem shuffleSeq_shift (orc : Nat → TrialOracle) (i : Nat) (s : Mat) :
    ∀ k, shuffleSeq orc (i + 1) (shuffleFlat s (orc i).perm) k =
      shuffleSeq orc i s (k + 1) := by
  intro k
  induction k with
  | zero =>
    show shuffleFlat (shuffleFlat s (orc i).perm) (orc (i + 1)).perm =
      shuffleFlat (shuffleSeq orc i s 0) (orc (i + 0 + 1)).perm
    rfl
  | succ m ih =>
    show shuffleFlat (shuffleSeq orc (i + 1) (shuffleFlat s (orc i).perm) m)
        (orc (i + 1 + m + 1)).perm =
      shuffleFlat (shuffleSeq orc i s (m + 1)) (orc (i + (m + 1) + 1)).perm
    rw [ih]
    have e : i + 1 + m + 1 = i + (m + 1) + 1 := by omega
    rw [e]

theorem sigLoop_true_iff (cfg : Config) (orc : Nat → TrialOracle) (score : ℚ) :
    ∀ (fuel i : Nat) (s r : Mat),
      (sigLoop cfg orc score i fuel (r, s)).1 = true ↔
        ∀ k, k < fuel →
          sumSquares (fitLayer cfg
            ⟨(orc (i + k)).rowLabels, (orc (i + k)).colLabels⟩
            (shuffleSeq orc i s k)).2.2 < score := by
  intro fuel
  induction fuel with
  | zero =>
    intro i s r
    simp [sigLoop]
  | succ n ih =>
    intro i s r
    simp only [sigLoop]
    by_cases hc : score ≤ sumSquares (fitLayer cfg
        ⟨(orc i).rowLabels, (orc i).colLabels⟩
        (shuffleFlat s (orc i).perm)).2.2
    · rw [if_pos hc]
      constructor
      · intro h
        exact Bool.noConfusion h
      · intro h
        exact absurd (h 0 (Nat.succ_pos n)) (not_lt.mpr hc)
    · rw [if_neg hc]
      rw [ih (i + 1) (shuffleFlat s (orc i).perm) r]
      constructor
      · intro h k hk
        cases k with
        | zero => exact not_le.mp hc
        | succ m =>
          have hm : m < n := Nat.lt_of_succ_lt_succ hk
          have hx := h m hm
          rw [shuffleSeq_shift] at hx
          have e : i + 1 + m = i + (m + 1) := by omega
          rw [e] at hx
          exact hx
      · intro h k hk
        have hx := h (k + 1) (Nat.succ_lt_succ hk)
        rw [shuffleSeq_shift]
        have e : i + 1 + k = i + (k + 1) := by omega
        rw [e]
        exact hx

theorem shuffleSeq_congr (orc orc' : Nat → TrialOracle) (i : Nat) (s : Mat) :
    ∀ k, (∀ j, j ≤ i + k → orc' j = orc j) →
      shuffleSeq orc' i s k = shuffleSeq orc i s k := by
  intro k
  induction k with
  | zero =>
    intro h
    show shuffleFlat s (orc' i).perm = shuffleFlat s (orc i).perm
    rw [h i (Nat.le_add_right i 0)]
  | succ m ih =>
    intro h
    show shuffleFlat (shuffleSeq orc' i s m) (orc' (i + m + 1)).perm =
      shuffleFlat (shuffleSeq orc i s m) (orc (i + m + 1)).perm
    rw [ih (fun j hj => h j (by omega)), h (i + m + 1) (by omega)]

theorem trialScore_congr (cfg : Config) (orc orc' : Nat → TrialOracle)
    (M : Mat) (k : Nat) (h : ∀ j, j ≤ k → orc' j = orc j) :
    trialScore cfg orc' M k = trialScore cfg orc M k := by
  simp only [trialScore, trialMat]
  rw [shuffleSeq_congr orc orc' 0 M k (fun j hj => h j (by omega)),
    h k (Nat.le_refl k)]

/-- Claim C2: `_is_significant` computes the candidate layer's sum of squares
and runs at most `significance_tests` trials, each fitting a layer on a
permutation of the residual entries; it accepts exactly when every trial's
test score is strictly below the candidate's, it unconditionally accepts
when `significance_tests` is 0, and it short-circuits: as soon as trial `k`
reaches the candidate's score the verdict is "not significant" regardless of
the randomness of any later trial. -/
theorem isSignificant_spec (cfg : Config) (orc : Nat → TrialOracle)
    (M L : Mat) :
    ((isSignificantState cfg orc M L).1 = true ↔
      ∀ k, k < cfg.significance_tests.toNat →
        trialScore cfg orc M k < sumSquares L)
    ∧ (cfg.significance_tests = 0 → (isSignificantState cfg orc M L).1 = true)
    ∧ (∀ (orc' : Nat → TrialOracle) (k : Nat),
        k < cfg.significance_tests.toNat →
        sumSquares L ≤ trialScore cfg orc M k →
        (∀ j, j ≤ k → orc' j = orc j) →
        (isSignificantState cfg orc' M L).1 = false) := by
  have hiff : ∀ o : Nat → TrialOracle,
      ((isSignificantState cfg o M L).1 = true ↔
        ∀ k, k < cfg.significance_tests.toNat →
          trialScore cfg o M k < sumSquares L) := by
    intro o
    have hx := sigLoop_true_iff cfg o (sumSquares L)
      cfg.significance_tests.toNat 0 M M
    simp only [Nat.zero_add] at hx
    show (sigLoop cfg o (sumSquares L) 0 cfg.significance_tests.toNat
      (M, M)).1 = true ↔ _
    simp only [trialScore, trialMat]
    exact hx
  refine ⟨hiff orc, ?_, ?_⟩
  · intro h0
    rw [hiff orc]
    intro k hk
    rw [h0] at hk
    exact absurd hk (by simp)
  · intro orc' k hk hge hagree
    cases hb : (isSignificantState cfg orc' M L).1 with
    | false => rfl
    | true =>
      have hall := (hiff orc').mp hb
      have hlt := hall k hk
      rw [trialScore_congr cfg orc orc' M k hagree] at hlt
      exact absurd hlt (not_lt.mpr hge)

theorem isSignificant_spec_witness :
    w2Cfg.significance_tests = 0 ∧
      (isSignificantState w2Cfg w2Orc w2M w2L).1 = true :=
  ⟨rfl, (isSignificant_spec w2Cfg w2Orc w2M w2L).2.1 rfl⟩

end Plaid
